import Mathlib

/-!
# bank-sync-service — verification of the sync/coordination core

Shallow embedding of the synchronization engine of the `bank-sync-service`
repository: the Redis-backed distributed lock (`src/lib/lock.ts`), the
dedup/idempotency store (`src/lib/dedupe.ts`), the cursor/checkpoint store
(`src/lib/cursor.ts`), the sync pipeline (`src/workers/syncRunner.ts`), the
rate-limit-aware scheduler (`src/lib/scheduler.ts`) and the webhook
anti-replay gate (`src/routes/webhook-gc.ts`).

The shared Redis store is modelled as a partial map from string keys to
string values; each Redis command used by the code (`SET ... NX`, `GET`,
`DEL`, the Lua compare-and-delete) is an atomic state transition on that
map, exactly as Redis executes it.  Fallible store access is modelled by an
explicit failure flag where the source catches store errors.  Wall-clock
readings (`Date.now()`, `new Date().toISOString()`) are parameters.
-/

namespace BankSync

/-- The string-keyed slice of the shared Redis store. -/
def Store := String → Option String

/-- The empty store (no keys present). -/
def emptyStore : Store := fun _ => none

/-- Redis `SET key value` (overwrite). -/
def storeSet (s : Store) (k v : String) : Store :=
  fun k' => if k' = k then some v else s k'

/-- Redis `DEL key`. -/
def storeDel (s : Store) (k : String) : Store :=
  fun k' => if k' = k then none else s k'

/-! ## Distributed lock — `src/lib/lock.ts`

The module sets `LOCK_PREFIX = 'gc:sync:lock:'`; a `Lock` holds the account
id and a random owner token (`this.value`). -/

/-- Key of a `Lock` (`this.key`): the lock key literal followed by the
account id. -/
def lockKey (accountId : String) : String := "gc:sync:lock:" ++ accountId

/-- The `Lock` class: account id plus the owner-unique token written as the
lock value. -/
structure Lock where
  accountId : String
  value : String

/-- One `Lock.acquire` attempt, `SET key value EX ttl NX`: succeeds (returns
`true` and writes the token) iff the key is absent.  (The source repeats
this same atomic attempt up to `retries` times with a fixed delay; each
attempt is this transition.) -/
def Lock.tryAcquire (l : Lock) (s : Store) : Bool × Store :=
  match s (lockKey l.accountId) with
  | some _ => (false, s)
  | none => (true, storeSet s (lockKey l.accountId) l.value)

/-- The `Lock.release` Lua script
`if get(KEYS[1]) == ARGV[1] then del(KEYS[1]) else 0`, executed atomically by
Redis; returns `true` iff the stored value equalled the caller's token (in
which case the key is deleted). -/
def Lock.release (l : Lock) (s : Store) : Bool × Store :=
  match s (lockKey l.accountId) with
  | some v =>
      if v = l.value then (true, storeDel s (lockKey l.accountId))
      else (false, s)
  | none => (false, s)

/-! ## Dedup / idempotency store — `src/lib/dedupe.ts` -/

/-- The dedupe key for an external reference: the
`DEDUPE_PREFIX = 'gc:tx:dedupe:'` literal followed by the reference. -/
def dedupKey (externalRef : String) : String := "gc:tx:dedupe:" ++ externalRef

/-- Function `isDuplicate(externalRef)`: atomic `SET key '1' EX DEDUPE_TTL NX`;
`isDupe := (result === null)`, i.e. `true` iff the key already existed.
When the store call throws (`storeFails`), the `catch` branch logs and
returns `false` ("assume not duplicate to avoid data loss"); the failed
command leaves the store unchanged. -/
def isDuplicate (storeFails : Bool) (s : Store) (externalRef : String) :
    Bool × Store :=
  if storeFails then (false, s)
  else
    match s (dedupKey externalRef) with
    | some _ => (true, s)
    | none => (false, storeSet s (dedupKey externalRef) "1")

/-! ## Sync pipeline — `src/workers/syncRunner.ts`, transaction processing

`executeSync` streams transaction pages, normalizes each raw transaction,
checks the dedup store, emits a `bank.tx.created` event for non-duplicates,
and checks the `maxTransactionsPerSync` cap after each page. -/

/-- The fields of a raw GoCardless transaction that determine its external
reference (`normalizeTransaction` computes
`tx.internalTransactionId || tx.transactionId`).  The remaining raw fields
(amount, dates, remittance text) only shape the emitted payload and play no
role in the dedup/cap control flow the claims are about. -/
structure GCTransaction where
  transactionId : String
  internalTransactionId : Option String

/-- The `externalRef` computed by `GoCardlessClient.normalizeTransaction`:
`tx.internalTransactionId || tx.transactionId` (JS `||`, so an absent or
empty internal id falls through to `transactionId`). -/
def normalizeRef (tx : GCTransaction) : String :=
  match tx.internalTransactionId with
  | some s => if s = "" then tx.transactionId else s
  | none => tx.transactionId

/-- The state threaded through one or more `executeSync` executions: the
dedupe slice of the shared store, the ordered log of `bank.tx.created`
emissions (each recorded by the `externalRef` it carries), and the run's
`processed` counter. -/
structure SyncState where
  dedup : Store
  events : List String
  processed : Nat

/-- The per-transaction body of `executeSync`'s inner loop: normalize,
`isDuplicate`; on a duplicate, `continue` (silent skip); otherwise emit
`bank.tx.created` and increment `processed`. -/
def processTx (storeFails : Bool) (st : SyncState) (tx : GCTransaction) :
    SyncState :=
  let ref := normalizeRef tx
  let res := isDuplicate storeFails st.dedup ref
  if res.1 then { st with dedup := res.2 }
  else { dedup := res.2, events := st.events ++ [ref],
         processed := st.processed + 1 }

/-- Processing one provider page: the inner `for` loop over
`page.transactions`. -/
def processPage (storeFails : Bool) (st : SyncState)
    (page : List GCTransaction) : SyncState :=
  page.foldl (processTx storeFails) st

/-- The page loop of `executeSync`: after each page, if
`processed >= config.sync.maxTransactionsPerSync` the loop does `break` (no
error); otherwise the next page is consumed.  (The cursor and operation
writes of the loop are modelled separately below; they do not touch dedup
state or emissions.) -/
def executeSyncRun (storeFails : Bool) (maxTx : Nat) :
    SyncState → List (List GCTransaction) → SyncState
  | st, [] => st
  | st, page :: rest =>
      let st' := processPage storeFails st page
      if maxTx ≤ st'.processed then st'
      else executeSyncRun storeFails maxTx st' rest

/-- Any number of sync pipeline executions in sequence (retries within one
sync and re-runs over the same or other provider pages), sharing the durable
dedup store. -/
def runSyncs (storeFails : Bool) (maxTx : Nat) :
    SyncState → List (List (List GCTransaction)) → SyncState
  | st, [] => st
  | st, pages :: rest =>
      runSyncs storeFails maxTx (executeSyncRun storeFails maxTx st pages) rest

/-- A fresh pipeline state over an empty dedup store. -/
def emptySyncState : SyncState := ⟨emptyStore, [], 0⟩

/-- Exactly-once bookkeeping for one external reference: the number of
`bank.tx.created` events carrying `R` is 1 if `R`'s dedup key has been
claimed and 0 otherwise. -/
def emittedMatchesDedup (st : SyncState) (R : String) : Prop :=
  st.events.count R = if (st.dedup (dedupKey R)).isSome then 1 else 0

/-! ## Cursor / checkpoint — `src/lib/cursor.ts` and the cursor writes of
`executeSync` -/

/-- The `CursorData` interface. -/
structure CursorData where
  sinceISO : String
  cursor : Option String
  lastTxnRef : Option String
  updatedAt : String

/-- A `Partial<CursorData>` update as passed to `setCursor`. -/
structure CursorUpdate where
  sinceISO : Option String
  cursor : Option String
  lastTxnRef : Option String

/-- JS `a || b` on strings, where both an absent value (`undefined`, encoded
as `""` by `optStr`) and the empty string are falsy. -/
def jsOr (a b : String) : String := if a = "" then b else a

/-- JS `a || b` where the result may itself stay absent (`undefined`). -/
def jsOrOpt (a b : Option String) : Option String :=
  match a with
  | some s => if s = "" then b else some s
  | none => b

/-- Encode an optional string the way JS sees a possibly-`undefined` string
operand of `||`: absent behaves like the falsy `""`. -/
def optStr : Option String → String
  | some s => s
  | none => ""

/-- The merge performed by `setCursor(accountId, cursor)`:
`sinceISO: cursor.sinceISO || existing?.sinceISO || new Date().toISOString()`,
`cursor: cursor.cursor || existing?.cursor`,
`lastTxnRef: cursor.lastTxnRef || existing?.lastTxnRef`,
`updatedAt: new Date().toISOString()`; the result is written to the cursor
key and mirrored to the checkpoint key. -/
def setCursorMerge (nowISO : String) (existing : Option CursorData)
    (u : CursorUpdate) : CursorData :=
  { sinceISO := jsOr (optStr u.sinceISO)
      (jsOr (optStr (existing.map (·.sinceISO))) nowISO),
    cursor := jsOrOpt u.cursor (existing.bind (·.cursor)),
    lastTxnRef := jsOrOpt u.lastTxnRef (existing.bind (·.lastTxnRef)),
    updatedAt := nowISO }

/-- The effective upper bound of `executeSync`:
`options.toDate || new Date().toISOString().split('T')[0]`. -/
def effectiveToDate (optTo : Option String) (today : String) : String :=
  jsOr (optStr optTo) today

/-- The `setCursor` call made after a page when
`page.transactions.length > 0`:
`setCursor(accountId, { sinceISO: toDate, lastTxnRef: lastTx.transactionId })`. -/
def pageCursorWrite (nowISO toDate : String) (cur : Option CursorData)
    (page : List GCTransaction) : Option CursorData :=
  match page.getLast? with
  | none => cur
  | some lastTx =>
      some (setCursorMerge nowISO cur
        ⟨some toDate, none, some lastTx.transactionId⟩)

/-- The net effect of one successful `executeSync` on the stored cursor of
the account: the per-page `setCursor` writes over the pages actually
consumed, followed by the final `setCursor(accountId, { sinceISO: toDate })`. -/
def executeSyncCursor (nowISO toDate : String) (cur : Option CursorData)
    (pagesConsumed : List (List GCTransaction)) : CursorData :=
  setCursorMerge nowISO
    (pagesConsumed.foldl (pageCursorWrite nowISO toDate) cur)
    ⟨some toDate, none, none⟩

/-- Lexicographic order on character lists, the order ISO-8601 date strings
of equal format inherit from chronology. -/
def lexLe : List Char → List Char → Bool
  | [], _ => true
  | _ :: _, [] => false
  | a :: as, b :: bs => if a < b then true else if b < a then false else lexLe as bs

/-- Chronological comparison of ISO date strings (`YYYY-MM-DD`), which on
this fixed-width format coincides with lexicographic comparison. -/
def isoDateLe (a b : String) : Bool := lexLe a.data b.data

/-! ## Rate limiter & scheduler — `src/lib/scheduler.ts` -/

/-- A reading of the wall clock, split as the Date API uses it: the current
civil day and the elapsed milliseconds within it. -/
structure Clock where
  day : Nat
  msOfDay : Nat

/-- The clock as `now.getTime()` epoch milliseconds. -/
def Clock.ms (c : Clock) : Nat := c.day * 86400000 + c.msOfDay

/-- Next-day midnight, as computed by
`tomorrow.setDate(getDate() + 1); tomorrow.setHours(0, 0, 0, 0)`. -/
def Clock.nextMidnightMs (c : Clock) : Nat := (c.day + 1) * 86400000

/-- The pieces of rate-limit state `canRunTask` reads for the candidate
task's account: the parsed value of the account suspension key (epoch ms),
the parsed per-(account, day) counter, and the parsed global minute-bucket
counter; `none` when the key is absent. -/
structure RateEnv where
  rateLimitExpiry : Option Nat
  dailyCount : Option Nat
  minuteCount : Option Nat

/-- The `{ allowed, nextAvailableTime?, reason? }` object `canRunTask`
returns; times in epoch milliseconds. -/
structure CanRunResult where
  allowed : Bool
  nextAvailableTime : Option Nat
  reason : Option String
deriving DecidableEq

/-- Gate (c) of `canRunTask`, the global per-minute cap (source constant
`MAX_REQUESTS_PER_MINUTE = 100`; the denial reason hardcodes "100 req/min"). -/
def canRunGlobal (maxPerMinute : Nat) (now : Clock) (env : RateEnv) :
    CanRunResult :=
  match env.minuteCount with
  | some c =>
      if maxPerMinute ≤ c then
        ⟨false, some (now.ms + 60000), some "Global rate limit reached (100 req/min)"⟩
      else ⟨true, none, none⟩
  | none => ⟨true, none, none⟩

/-- Gate (b) of `canRunTask`, the per-account daily cap (source constant
`DAILY_LIMIT = 4`), falling through to the global gate when below the cap. -/
def canRunDaily (dailyLimit maxPerMinute : Nat) (now : Clock) (env : RateEnv) :
    CanRunResult :=
  match env.dailyCount with
  | some c =>
      if dailyLimit ≤ c then
        ⟨false, some now.nextMidnightMs,
          some ("Daily limit (" ++ toString dailyLimit ++ ") reached for account")⟩
      else canRunGlobal maxPerMinute now env
  | none => canRunGlobal maxPerMinute now env

/-- The method `SmartScheduler.canRunTask`: gate (a) account suspension (a
provider 429 stored a suspension-until timestamp still in the future), then
gate (b) the daily cap, then gate (c) the global per-minute cap. -/
def canRunTask (dailyLimit maxPerMinute : Nat) (now : Clock) (env : RateEnv) :
    CanRunResult :=
  match env.rateLimitExpiry with
  | some expiry =>
      if now.ms < expiry then
        ⟨false, some expiry, some "Account is rate limited by GoCardless"⟩
      else canRunDaily dailyLimit maxPerMinute now env
  | none => canRunDaily dailyLimit maxPerMinute now env

/-- The `ScheduledTask` interface (`nextRunTime` as epoch milliseconds). -/
structure ScheduledTask where
  id : String
  type : String
  accountId : String
  priority : Nat
  retryCount : Nat
  nextRunTimeMs : Nat
  lastError : Option String
deriving DecidableEq

/-- The error inspected by `processTasks`'s catch block:
`error.response?.status`, the two retry headers (already parsed, `none` when
absent), `error.response?.data?.detail`, and `error.message`. -/
structure HttpFailure where
  status : Option Nat
  retryAfterHeaderSec : Option Nat
  rlResetHeaderSec : Option Nat
  detail : Option String
  message : String

/-- The parse
`parseInt(headers['retry-after'] || headers['x-ratelimit-account-success-reset'] || '3600')`. -/
def failureRetryAfterSec (e : HttpFailure) : Nat :=
  match e.retryAfterHeaderSec with
  | some n => n
  | none =>
      match e.rlResetHeaderSec with
      | some n => n
      | none => 3600

/-- What the catch block leaves behind: the task's queue entry (`none` when
removed from the queue), the scheduler events emitted, and the value written
to the account suspension key (epoch ms), if any. -/
structure FailureResult where
  task : Option ScheduledTask
  emitted : List String
  suspensionValueMs : Option Nat
deriving DecidableEq

/-- The catch block of `SmartScheduler.processTasks`: a provider 429
reschedules to `now + retryAfter * 1000` with the retry count untouched,
records the suspension, and emits `rateLimitHit`; any other failure
increments `retryCount` and, below the ceiling of 3, reschedules with
backoff `2^retryCount * 60000` ms, else removes the task and emits
`taskFailed`. -/
def handleTaskFailure (nowMs : Nat) (task : ScheduledTask) (e : HttpFailure) :
    FailureResult :=
  if e.status = some 429 then
    let retryAfter := failureRetryAfterSec e
    let retryTime := nowMs + retryAfter * 1000
    { task := some { task with
        nextRunTimeMs := retryTime,
        lastError := some (jsOr (optStr e.detail) "Rate limit exceeded") },
      emitted := ["rateLimitHit"],
      suspensionValueMs := some retryTime }
  else
    let rc := task.retryCount + 1
    if rc < 3 then
      { task := some { task with
          retryCount := rc,
          nextRunTimeMs := nowMs + 2 ^ rc * 60000,
          lastError := some e.message },
        emitted := [],
        suspensionValueMs := none }
    else
      { task := none, emitted := ["taskFailed"], suspensionValueMs := none }

/-! ## Webhook anti-replay gate — `src/routes/webhook-gc.ts` -/

/-- The replay key for a webhook event id: the
`WEBHOOK_REPLAY_PREFIX = 'gc:webhook:sig:'` literal followed by the id. -/
def replayKey (eventId : String) : String := "gc:webhook:sig:" ++ eventId

/-- A provider webhook event as consumed by the route (the `links`/`details`
fields only shape the handler's reaction). -/
structure WebhookEventGC where
  id : String
  resource_type : String
  action : String
  created_at : String

/-- Webhook route state: the replay slice of the store plus the log of event
ids actually dispatched to `processWebhookEvent`. -/
structure WebhookState where
  replay : Store
  handled : List String

/-- The per-event body of the route's loop: atomic
`SET replayKey '1' EX 72h NX`; if the key already existed the event is
silently skipped (`continue`), else it is dispatched to
`processWebhookEvent`. -/
def handleWebhookDelivery (st : WebhookState) (e : WebhookEventGC) :
    WebhookState :=
  match st.replay (replayKey e.id) with
  | some _ => st
  | none =>
      { replay := storeSet st.replay (replayKey e.id) "1",
        handled := st.handled ++ [e.id] }

/-- One delivery of a signature-verified webhook request: the loop over
`payload.events` followed by the `{ status: 'ok' }` response (no handler in
the modelled, non-throwing path reaches the 500 branch). -/
def webhookDeliver (st : WebhookState) (events : List WebhookEventGC) :
    WebhookState × Bool :=
  (events.foldl handleWebhookDelivery st, true)

/-! ## Operation records — `updateOperation` in `src/workers/syncRunner.ts` -/

/-- The `SyncOperation` interface of `src/types.ts`. -/
structure SyncOperation where
  operationId : String
  accountId : String
  status : String
  startedAt : String
  completedAt : Option String
  processed : Nat
  errors : List String
  cursor : Option String
deriving DecidableEq

/-- A `Partial<SyncOperation>` update as passed to `updateOperation`
(`some` = property present in the update object). -/
structure OperationUpdate where
  status : Option String
  startedAt : Option String
  completedAt : Option String
  processed : Option Nat
  errors : Option (List String)
  cursor : Option String

/-- The operation slice of the store, keyed by operation key. -/
def OpStore := String → Option SyncOperation

/-- The operation key: the `OPERATION_PREFIX = 'gc:op:'` literal followed by
the operation id. -/
def operationKey (operationId : String) : String := "gc:op:" ++ operationId

/-- JS object spread `{ ...operation, ...updates }`: properties present in
the update replace those of the stored operation. -/
def applyOperationUpdate (op : SyncOperation) (u : OperationUpdate) :
    SyncOperation :=
  { op with
    status := u.status.getD op.status,
    startedAt := u.startedAt.getD op.startedAt,
    completedAt :=
      (match u.completedAt with | some c => some c | none => op.completedAt),
    processed := u.processed.getD op.processed,
    errors := u.errors.getD op.errors,
    cursor := (match u.cursor with | some c => some c | none => op.cursor) }

/-- Write to the operation slice of the store. -/
def opStoreSet (s : OpStore) (k : String) (v : SyncOperation) : OpStore :=
  fun k' => if k' = k then some v else s k'

/-- Function `updateOperation(operationId, updates)`: `GET` the record; when
absent, `return` without writing; otherwise merge and `SET` back with the
7-day TTL.  The whole body is wrapped in try/catch whose catch only logs
(`storeFails` models the store throwing: nothing is written and no error
propagates). -/
def updateOperation (storeFails : Bool) (ops : OpStore) (operationId : String)
    (u : OperationUpdate) : OpStore :=
  if storeFails then ops
  else
    match ops (operationKey operationId) with
    | none => ops
    | some op =>
        opStoreSet ops (operationKey operationId) (applyOperationUpdate op u)

/-! ## Lock-scoped retry structure — `startSync` / `withAccountLock` /
`executeSyncWithRetry` in `src/workers/syncRunner.ts` & `src/lib/lock.ts` -/

/-- The observable lock/attempt actions of one `startSync` invocation. -/
inductive SyncEvent where
  | lockAcquire
  | lockRelease
  | syncAttempt (attempt : Nat)
deriving DecidableEq

/-- Recognizer for the acquire action. -/
def isLockAcquire : SyncEvent → Bool
  | .lockAcquire => true
  | _ => false

/-- Recognizer for the release action. -/
def isLockRelease : SyncEvent → Bool
  | .lockRelease => true
  | _ => false

/-- The attempt loop of `executeSyncWithRetry` (`maxRetries = 3`): runs
`executeSync` once per attempt (recorded as a `syncAttempt` trace event),
returning at the first success; when every attempt fails the last error is
rethrown (`false`).  `outcomes n` says whether attempt number `n` succeeds. -/
def runAttempts (outcomes : Nat → Bool) : Nat → Nat → List SyncEvent × Bool
  | _, 0 => ([], false)
  | attempt, remaining + 1 =>
      if outcomes attempt then ([SyncEvent.syncAttempt attempt], true)
      else
        let rest := runAttempts outcomes (attempt + 1) remaining
        (SyncEvent.syncAttempt attempt :: rest.1, rest.2)

/-- The trace of `executeSyncWithRetry`: attempts numbered from 1, up to
`maxRetries = 3` of them. -/
def executeSyncWithRetryTrace (outcomes : Nat → Bool) : List SyncEvent × Bool :=
  runAttempts outcomes 1 3

/-- The trace of `withAccountLock`: one `lock.acquire()`; on failure a
thrown conflict error (no body, no release); on success the body runs inside
`try`, and `lock.release()` runs in `finally` whether the body returned or
threw (its outcome is propagated either way). -/
def withAccountLockTrace (acquired : Bool) (body : List SyncEvent × Bool) :
    List SyncEvent × Bool :=
  if acquired then
    (SyncEvent.lockAcquire :: body.1 ++ [SyncEvent.lockRelease], body.2)
  else ([SyncEvent.lockAcquire], false)

end BankSync

namespace BankSync

/-! ## Basic store lemmas -/

@[simp] theorem storeSet_self (s : Store) (k v : String) :
    storeSet s k v k = some v := by
  simp [storeSet]

theorem storeSet_ne (s : Store) (k v k' : String) (h : k' ≠ k) :
    storeSet s k v k' = s k' := by
  simp [storeSet, h]

@[simp] theorem storeDel_self (s : Store) (k : String) :
    storeDel s k k = none := by
  simp [storeDel]

/-- Left-cancellation for string append (a key made of a fixed literal
followed by an identifier determines the identifier). -/
theorem string_append_left_cancel {p a b : String} (h : p ++ a = p ++ b) :
    a = b := by
  have hd : (p ++ a).data = (p ++ b).data := congrArg String.data h
  simp only [String.data_append] at hd
  exact String.ext (List.append_cancel_left hd)

/-- `Lock.release` as a single conditional: delete-and-succeed exactly when
the stored value equals the caller's token. -/
theorem lock_release_eq (l : Lock) (s : Store) :
    Lock.release l s =
      if s (lockKey l.accountId) = some l.value
      then (true, storeDel s (lockKey l.accountId)) else (false, s) := by
  unfold Lock.release
  cases hv : s (lockKey l.accountId) with
  | none => simp
  | some v =>
      by_cases hveq : v = l.value
      · simp [hveq]
      · simp [hveq]

/-! ## Exactly-once invariant lemmas -/

theorem processTx_preserves (R : String) (st : SyncState) (tx : GCTransaction)
    (h : emittedMatchesDedup st R) :
    emittedMatchesDedup (processTx false st tx) R := by
  unfold emittedMatchesDedup at h ⊢
  cases hv : st.dedup (dedupKey (normalizeRef tx)) with
  | some v =>
      have hst : processTx false st tx = { st with dedup := st.dedup } := by
        simp [processTx, isDuplicate, hv]
      rw [hst]
      simpa using h
  | none =>
      have hst : processTx false st tx =
          ⟨storeSet st.dedup (dedupKey (normalizeRef tx)) "1",
            st.events ++ [normalizeRef tx], st.processed + 1⟩ := by
        simp [processTx, isDuplicate, hv]
      rw [hst]
      by_cases href : normalizeRef tx = R
      · subst href
        rw [hv] at h
        simp only [Option.isSome_none, Bool.false_eq_true, if_false] at h
        simp [List.count_append, h]
      · have hkey : dedupKey R ≠ dedupKey (normalizeRef tx) :=
          fun hk => href (string_append_left_cancel hk.symm)
        have hR : storeSet st.dedup (dedupKey (normalizeRef tx)) "1"
            (dedupKey R) = st.dedup (dedupKey R) :=
          storeSet_ne _ _ _ _ hkey
        have hcnt : List.count R [normalizeRef tx] = 0 := by
          simp [List.count_cons]
          exact href
        simp [List.count_append, hR, hcnt, h]

theorem processPage_preserves (R : String) (st : SyncState)
    (page : List GCTransaction) (h : emittedMatchesDedup st R) :
    emittedMatchesDedup (processPage false st page) R := by
  induction page generalizing st with
  | nil => simpa [processPage] using h
  | cons tx rest ih =>
      exact ih _ (processTx_preserves R st tx h)

theorem executeSyncRun_preserves (R : String) (maxTx : Nat) (st : SyncState)
    (pages : List (List GCTransaction)) (h : emittedMatchesDedup st R) :
    emittedMatchesDedup (executeSyncRun false maxTx st pages) R := by
  induction pages generalizing st with
  | nil => simpa [executeSyncRun] using h
  | cons page rest ih =>
      unfold executeSyncRun
      by_cases hc : maxTx ≤ (processPage false st page).processed
      · simpa [hc] using processPage_preserves R st page h
      · simpa [hc] using ih _ (processPage_preserves R st page h)

theorem runSyncs_preserves (R : String) (maxTx : Nat) (st : SyncState)
    (runs : List (List (List GCTransaction))) (h : emittedMatchesDedup st R) :
    emittedMatchesDedup (runSyncs false maxTx st runs) R := by
  induction runs generalizing st with
  | nil => simpa [runSyncs] using h
  | cons pages rest ih =>
      exact ih _ (executeSyncRun_preserves R maxTx st pages h)

/-! ## Processed-count bounds -/

theorem processTx_processed_le (storeFails : Bool) (st : SyncState)
    (tx : GCTransaction) :
    (processTx storeFails st tx).processed ≤ st.processed + 1 := by
  by_cases h : (isDuplicate storeFails st.dedup (normalizeRef tx)).1 = true
  · have heq : (processTx storeFails st tx).processed = st.processed := by
      simp [processTx, h]
    omega
  · have heq : (processTx storeFails st tx).processed = st.processed + 1 := by
      simp [processTx, h]
    omega

theorem processPage_processed_le (storeFails : Bool) (st : SyncState)
    (page : List GCTransaction) :
    (processPage storeFails st page).processed ≤ st.processed + page.length := by
  induction page generalizing st with
  | nil => simp [processPage]
  | cons tx rest ih =>
      calc (processPage storeFails st (tx :: rest)).processed
          = (processPage storeFails (processTx storeFails st tx) rest).processed :=
            rfl
        _ ≤ (processTx storeFails st tx).processed + rest.length := ih _
        _ ≤ st.processed + 1 + rest.length :=
            Nat.add_le_add_right (processTx_processed_le storeFails st tx) _
        _ = st.processed + (tx :: rest).length := by
            simp [List.length_cons]; omega

theorem executeSyncRun_processed_lt (maxTx L : Nat) :
    ∀ (pages : List (List GCTransaction)) (st : SyncState),
      (∀ p ∈ pages, p.length ≤ L) → st.processed < maxTx →
      (executeSyncRun false maxTx st pages).processed < maxTx + L := by
  intro pages
  induction pages with
  | nil =>
      intro st _ hst
      exact Nat.lt_of_lt_of_le hst (Nat.le_add_right _ _)
  | cons page rest ih =>
      intro st hL hst
      have hp : (processPage false st page).processed ≤ st.processed + L :=
        le_trans (processPage_processed_le false st page)
          (Nat.add_le_add_left (hL page (by simp)) _)
      unfold executeSyncRun
      by_cases hc : maxTx ≤ (processPage false st page).processed
      · simpa [hc] using Nat.lt_of_le_of_lt hp (Nat.add_lt_add_right hst L)
      · have hc' : (processPage false st page).processed < maxTx :=
          Nat.lt_of_not_le hc
        simpa [hc] using
          ih (processPage false st page)
            (fun p hp' => hL p (List.mem_cons_of_mem _ hp')) hc'

end BankSync

namespace BankSync

/-- C2 — `Lock.release` is an atomic compare-and-delete: with holder X's
token stored under the account's lock key, a release by a different holder Y
returns `false` and leaves the store (hence X's ownership) unchanged; and in
general release returns `true` iff the caller's token equals the stored
value, in which case (and only then) the key is deleted. -/
theorem lock_release_compare_and_delete
    (acc tokX tokY : String) (s : Store)
    (hstored : s (lockKey acc) = some tokX) (hne : tokY ≠ tokX) :
    ((Lock.release ⟨acc, tokY⟩ s).1 = false ∧
      (Lock.release ⟨acc, tokY⟩ s).2 = s ∧
      (Lock.release ⟨acc, tokY⟩ s).2 (lockKey acc) = some tokX) ∧
    (∀ l : Lock, ∀ s' : Store,
      ((Lock.release l s').1 = true ↔ s' (lockKey l.accountId) = some l.value) ∧
      ((Lock.release l s').1 = true →
        (Lock.release l s').2 (lockKey l.accountId) = none)) := by
  constructor
  · have hx : tokX ≠ tokY := fun h => hne h.symm
    simp [lock_release_eq, hstored, hx]
  · intro l s'
    by_cases hc : s' (lockKey l.accountId) = some l.value
    · simp [lock_release_eq, hc]
    · simp [lock_release_eq, hc]

/-- Witness for C2 at concrete inputs: account `"acc-3"`, holder X's token
`"tokX"` stored, release attempted with token `"tokY"`. -/
theorem lock_release_compare_and_delete_witness :
    (storeSet emptyStore (lockKey "acc-3") "tokX") (lockKey "acc-3") =
        some "tokX" ∧
    ("tokY" : String) ≠ "tokX" ∧
    ((Lock.release ⟨"acc-3", "tokY"⟩
        (storeSet emptyStore (lockKey "acc-3") "tokX")).1 = false ∧
      (Lock.release ⟨"acc-3", "tokY"⟩
        (storeSet emptyStore (lockKey "acc-3") "tokX")).2 =
        storeSet emptyStore (lockKey "acc-3") "tokX" ∧
      (Lock.release ⟨"acc-3", "tokY"⟩
        (storeSet emptyStore (lockKey "acc-3") "tokX")).2 (lockKey "acc-3") =
        some "tokX") := by
  refine ⟨by simp, by decide, ?_⟩
  exact (lock_release_compare_and_delete "acc-3" "tokX" "tokY"
    (storeSet emptyStore (lockKey "acc-3") "tokX") (by simp) (by decide)).1

/-- C4 — `isDuplicate(externalRef)` returns `true` iff the dedupe key
already existed (the atomic set-if-absent did not win), and when the store
operation raises an error it returns `false` (fails open) instead of
propagating. -/
theorem isDuplicate_iff_existed_and_fails_open
    (s : Store) (externalRef : String) :
    ((isDuplicate false s externalRef).1 = true ↔
      (s (dedupKey externalRef)).isSome) ∧
    (isDuplicate true s externalRef).1 = false := by
  constructor
  · unfold isDuplicate
    cases hv : s (dedupKey externalRef) <;> simp [hv]
  · simp [isDuplicate]

/-- C1 — exactly-once emission per external reference, with the dedup store
healthy: starting from a state where reference `R` is unclaimed and carries
no emitted event, across any number of sync pipeline executions (retries,
re-runs over the same pages) the number of `bank.tx.created` events carrying
`R` is exactly 1 once `R`'s dedup key has been claimed and 0 before; the
first `isDuplicate(R)` atomically claims `R` and the event is emitted, and
any later processing of a transaction with reference `R` is silently skipped
(no event, no progress count). -/
theorem tx_created_exactly_once
    (R : String) (st0 : SyncState) (maxTx : Nat)
    (h0 : st0.dedup (dedupKey R) = none) (he : st0.events.count R = 0) :
    (∀ runs : List (List (List GCTransaction)),
      (runSyncs false maxTx st0 runs).events.count R =
        if ((runSyncs false maxTx st0 runs).dedup (dedupKey R)).isSome
        then 1 else 0) ∧
    (∀ (st : SyncState) (tx : GCTransaction), normalizeRef tx = R →
      st.dedup (dedupKey R) = none →
      (processTx false st tx).events = st.events ++ [R] ∧
      ((processTx false st tx).dedup (dedupKey R)).isSome = true) ∧
    (∀ (st : SyncState) (tx : GCTransaction), normalizeRef tx = R →
      (st.dedup (dedupKey R)).isSome = true →
      (processTx false st tx).events = st.events ∧
      (processTx false st tx).processed = st.processed) := by
  refine ⟨?_, ?_, ?_⟩
  · intro runs
    have hinv : emittedMatchesDedup st0 R := by
      unfold emittedMatchesDedup
      rw [h0, he]
      simp
    have hfin := runSyncs_preserves R maxTx st0 runs hinv
    unfold emittedMatchesDedup at hfin
    exact hfin
  · intro st tx href hnone
    subst href
    refine ⟨?_, ?_⟩
    · simp [processTx, isDuplicate, hnone]
    · simp [processTx, isDuplicate, hnone]
  · intro st tx href hsome
    subst href
    cases hv : st.dedup (dedupKey (normalizeRef tx)) with
    | none => rw [hv] at hsome; simp at hsome
    | some v =>
        constructor <;> simp [processTx, isDuplicate, hv]

/-- Witness for C1: reference `"t1"`, fresh state, two sync executions over
the same one-transaction page; the count equation is obtained from the
theorem with both hypotheses discharged at the concrete input. -/
theorem tx_created_exactly_once_witness :
    (emptySyncState.dedup (dedupKey "t1") = none ∧
      emptySyncState.events.count "t1" = 0) ∧
    (runSyncs false 1000 emptySyncState
        [[[⟨"t1", none⟩]], [[⟨"t1", none⟩]]]).events.count "t1" =
      (if ((runSyncs false 1000 emptySyncState
          [[[⟨"t1", none⟩]], [[⟨"t1", none⟩]]]).dedup (dedupKey "t1")).isSome
       then 1 else 0) :=
  ⟨⟨rfl, rfl⟩,
    (tx_created_exactly_once "t1" emptySyncState 1000 rfl rfl).1 _⟩

/-- C9 (counterexample) — a single run can process more than
`maxTransactionsPerSync` transactions: with cap 1, a single provider page
holding two fresh transactions is processed in full (`processed = 2 > 1`),
because the cap is only consulted after a whole page. -/
theorem sync_cap_counterexample :
    (executeSyncRun false 1 emptySyncState
        [[⟨"t1", none⟩, ⟨"t2", none⟩]]).processed = 2 ∧ ¬ (2 ≤ 1) := by
  constructor
  · rfl
  · decide

/-- C9 (amended) — the cap is enforced at page granularity: once the
processed counter reaches `maxTransactionsPerSync` after some page, the run
consumes no further pages and ends early without error (the remaining pages
are simply dropped); consequently, when every provider page holds at most
`L` transactions, a run that starts below the cap processes fewer than
`maxTx + L` transactions (at most `maxTx - 1` plus one final page), rather
than at most `maxTx`. -/
theorem sync_cap_page_granular
    (maxTx L : Nat) (st : SyncState) (pages : List (List GCTransaction))
    (hL : ∀ p ∈ pages, p.length ≤ L) (hst : st.processed < maxTx) :
    (executeSyncRun false maxTx st pages).processed < maxTx + L ∧
    ∀ (page : List GCTransaction) (rest : List (List GCTransaction)),
      maxTx ≤ (processPage false st page).processed →
      executeSyncRun false maxTx st (page :: rest) =
        processPage false st page := by
  refine ⟨executeSyncRun_processed_lt maxTx L pages st hL hst, ?_⟩
  intro page rest hc
  unfold executeSyncRun
  simp [hc]

/-- Witness for C9's amended statement: cap 1, pages of length at most 2,
starting from the fresh state. -/
theorem sync_cap_page_granular_witness :
    (∀ p ∈ [[(⟨"t1", none⟩ : GCTransaction), ⟨"t2", none⟩]], p.length ≤ 2) ∧
    emptySyncState.processed < 1 ∧
    ((executeSyncRun false 1 emptySyncState
        [[(⟨"t1", none⟩ : GCTransaction), ⟨"t2", none⟩]]).processed < 1 + 2 ∧
      ∀ (page : List GCTransaction) (rest : List (List GCTransaction)),
        1 ≤ (processPage false emptySyncState page).processed →
        executeSyncRun false 1 emptySyncState (page :: rest) =
          processPage false emptySyncState page) :=
  ⟨by intro p hp; simp at hp; subst hp; rfl, by decide,
    sync_cap_page_granular 1 2 emptySyncState
      [[(⟨"t1", none⟩ : GCTransaction), ⟨"t2", none⟩]]
      (by intro p hp; simp at hp; subst hp; rfl) (by decide)⟩

/-- Every trace event produced by the attempt loop is a `syncAttempt`, and
there are at most `remaining` of them. -/
theorem runAttempts_only_attempts (outcomes : Nat → Bool) :
    ∀ (remaining attempt : Nat),
      (∀ e ∈ (runAttempts outcomes attempt remaining).1,
        ∃ i, e = SyncEvent.syncAttempt i) ∧
      (runAttempts outcomes attempt remaining).1.length ≤ remaining := by
  intro remaining
  induction remaining with
  | zero => intro attempt; simp [runAttempts]
  | succ n ih =>
      intro attempt
      unfold runAttempts
      by_cases ho : outcomes attempt = true
      · simp [ho]
      · simp only [ho, Bool.false_eq_true, if_false]
        refine ⟨?_, ?_⟩
        · intro e he
          simp only [List.mem_cons] at he
          cases he with
          | inl h => exact ⟨attempt, h⟩
          | inr h => exact (ih (attempt + 1)).1 e h
        · simpa [List.length_cons] using
            Nat.succ_le_succ (ih (attempt + 1)).2

/-- C3 — in every `startSync` invocation that obtains the lock, the lock is
acquired exactly once before the 3-attempt retry loop, held across all
attempts (the loop's own trace contains no lock actions), and released
exactly once, as the very last action, whether the attempts succeeded or the
final failure is being rethrown; when acquisition fails, the body never runs
and there is nothing to release. -/
theorem lock_held_across_retry_sequence (outcomes : Nat → Bool) :
    ((withAccountLockTrace true (executeSyncWithRetryTrace outcomes)).1 =
      SyncEvent.lockAcquire :: (executeSyncWithRetryTrace outcomes).1 ++
        [SyncEvent.lockRelease]) ∧
    (((withAccountLockTrace true (executeSyncWithRetryTrace outcomes)).1.filter
        isLockAcquire).length = 1) ∧
    (((withAccountLockTrace true (executeSyncWithRetryTrace outcomes)).1.filter
        isLockRelease).length = 1) ∧
    ((withAccountLockTrace true (executeSyncWithRetryTrace outcomes)).1.getLast?
      = some SyncEvent.lockRelease) ∧
    (∀ e ∈ (executeSyncWithRetryTrace outcomes).1,
      isLockAcquire e = false ∧ isLockRelease e = false) ∧
    ((executeSyncWithRetryTrace outcomes).1.length ≤ 3) ∧
    ((withAccountLockTrace true (executeSyncWithRetryTrace outcomes)).2 =
      (executeSyncWithRetryTrace outcomes).2) ∧
    ((withAccountLockTrace false (executeSyncWithRetryTrace outcomes)).1 =
      [SyncEvent.lockAcquire]) := by
  have hbody : ∀ e ∈ (executeSyncWithRetryTrace outcomes).1,
      isLockAcquire e = false ∧ isLockRelease e = false := by
    intro e he
    obtain ⟨i, hi⟩ :=
      (runAttempts_only_attempts outcomes 3 1).1 e he
    subst hi
    exact ⟨rfl, rfl⟩
  have hfilA : ((executeSyncWithRetryTrace outcomes).1.filter
      isLockAcquire) = [] := by
    rw [List.filter_eq_nil_iff]
    intro e he
    simp [(hbody e he).1]
  have hfilR : ((executeSyncWithRetryTrace outcomes).1.filter
      isLockRelease) = [] := by
    rw [List.filter_eq_nil_iff]
    intro e he
    simp [(hbody e he).2]
  refine ⟨rfl, ?_, ?_, ?_, hbody, (runAttempts_only_attempts outcomes 3 1).2,
    rfl, rfl⟩
  · show ((SyncEvent.lockAcquire :: (executeSyncWithRetryTrace outcomes).1 ++
      [SyncEvent.lockRelease]).filter isLockAcquire).length = 1
    simp [List.filter_append, hfilA, isLockAcquire, isLockRelease]
  · show ((SyncEvent.lockAcquire :: (executeSyncWithRetryTrace outcomes).1 ++
      [SyncEvent.lockRelease]).filter isLockRelease).length = 1
    simp [List.filter_append, hfilR, isLockAcquire, isLockRelease]
  · show ((SyncEvent.lockAcquire :: (executeSyncWithRetryTrace outcomes).1 ++
      [SyncEvent.lockRelease]).getLast?) = some SyncEvent.lockRelease
    rw [List.getLast?_concat]

/-- Witness for C3: outcomes where attempt 1 fails and attempt 2 succeeds;
the trace shape is instantiated and the no-lock-actions part is applied to
the concrete attempt event in the body trace. -/
theorem lock_held_across_retry_sequence_witness :
    ((withAccountLockTrace true (executeSyncWithRetryTrace (fun n => n == 2))).1 =
      SyncEvent.lockAcquire ::
        (executeSyncWithRetryTrace (fun n => n == 2)).1 ++
        [SyncEvent.lockRelease]) ∧
    (SyncEvent.syncAttempt 1 ∈
      (executeSyncWithRetryTrace (fun n => n == 2)).1) ∧
    (isLockAcquire (SyncEvent.syncAttempt 1) = false ∧
      isLockRelease (SyncEvent.syncAttempt 1) = false) :=
  ⟨(lock_held_across_retry_sequence (fun n => n == 2)).1,
    by decide,
    (lock_held_across_retry_sequence (fun n => n == 2)).2.2.2.2.1 _ (by decide)⟩

/-- C5 (counterexample) — the cursor's since-timestamp is not non-decreasing
when a successful sync is invoked with an explicit `toDate` earlier than the
stored since: with since `"2024-06-01"` stored, a sync with
`toDate = "2020-01-01"` rewrites since to `"2020-01-01"`, strictly earlier. -/
theorem cursor_since_monotonic_counterexample :
    (executeSyncCursor "2024-06-02T10:00:00.000Z"
        (effectiveToDate (some "2020-01-01") "2024-06-02")
        (some ⟨"2024-06-01", none, none, "2024-06-01T00:00:00.000Z"⟩)
        []).sinceISO = "2020-01-01" ∧
    isoDateLe "2024-06-01"
      (executeSyncCursor "2024-06-02T10:00:00.000Z"
        (effectiveToDate (some "2020-01-01") "2024-06-02")
        (some ⟨"2024-06-01", none, none, "2024-06-01T00:00:00.000Z"⟩)
        []).sinceISO = false := by
  constructor
  · rfl
  · decide

/-- C5 (amended) — after every successful sync the stored since equals the
run's effective `toDate` (explicit `toDate` when given and non-empty, else
today); hence since is non-decreasing across successive successful syncs
whose effective `toDate` is not earlier than the previously stored since —
in particular for syncs without an explicit `toDate` whenever today is not
earlier than the stored since — while an explicit earlier `toDate` moves it
backwards. -/
theorem cursor_since_follows_toDate
    (nowISO toDate : String) (c0 : CursorData)
    (pages : List (List GCTransaction))
    (hToDate : toDate ≠ "")
    (hmono : isoDateLe c0.sinceISO toDate = true) :
    (executeSyncCursor nowISO toDate (some c0) pages).sinceISO = toDate ∧
    isoDateLe c0.sinceISO
      (executeSyncCursor nowISO toDate (some c0) pages).sinceISO = true := by
  have h1 : (executeSyncCursor nowISO toDate (some c0) pages).sinceISO =
      toDate := by
    unfold executeSyncCursor setCursorMerge
    simp [jsOr, optStr, hToDate]
  refine ⟨h1, ?_⟩
  rw [h1]
  exact hmono

/-- Witness for C5's amended statement: stored since `"2024-06-01"`,
effective `toDate` `"2024-06-02"` (today, no explicit bound), no pages. -/
theorem cursor_since_follows_toDate_witness :
    (effectiveToDate none "2024-06-02" ≠ "") ∧
    (isoDateLe "2024-06-01" (effectiveToDate none "2024-06-02") = true) ∧
    ((executeSyncCursor "2024-06-02T10:00:00.000Z"
        (effectiveToDate none "2024-06-02")
        (some ⟨"2024-06-01", none, none, "2024-06-01T00:00:00.000Z"⟩)
        []).sinceISO = effectiveToDate none "2024-06-02" ∧
      isoDateLe "2024-06-01"
        (executeSyncCursor "2024-06-02T10:00:00.000Z"
          (effectiveToDate none "2024-06-02")
          (some ⟨"2024-06-01", none, none, "2024-06-01T00:00:00.000Z"⟩)
          []).sinceISO = true) :=
  ⟨by decide, by decide,
    cursor_since_follows_toDate "2024-06-02T10:00:00.000Z"
      (effectiveToDate none "2024-06-02")
      ⟨"2024-06-01", none, none, "2024-06-01T00:00:00.000Z"⟩
      [] (by decide) (by decide)⟩

/-- C6 — with no active account suspension, a candidate task whose account
daily counter has reached the configured limit is denied by `canRunTask`
with next-day midnight as the next available time (and the daily-limit
reason); a task whose counter is below the limit (or has no counter yet)
passes the daily gate and is judged by the global per-minute gate alone. -/
theorem daily_cap_denies_until_midnight
    (dailyLimit maxPerMinute : Nat) (now : Clock) (env : RateEnv)
    (hsusp : ∀ expiry, env.rateLimitExpiry = some expiry → expiry ≤ now.ms) :
    (∀ c, env.dailyCount = some c → dailyLimit ≤ c →
      canRunTask dailyLimit maxPerMinute now env =
        ⟨false, some now.nextMidnightMs,
          some ("Daily limit (" ++ toString dailyLimit ++
            ") reached for account")⟩) ∧
    (∀ c, env.dailyCount = some c → c < dailyLimit →
      canRunTask dailyLimit maxPerMinute now env =
        canRunGlobal maxPerMinute now env) ∧
    (env.dailyCount = none →
      canRunTask dailyLimit maxPerMinute now env =
        canRunGlobal maxPerMinute now env) := by
  have hgate : canRunTask dailyLimit maxPerMinute now env =
      canRunDaily dailyLimit maxPerMinute now env := by
    unfold canRunTask
    cases hre : env.rateLimitExpiry with
    | none => rfl
    | some expiry =>
        have hle : expiry ≤ now.ms := hsusp expiry hre
        have : ¬ now.ms < expiry := Nat.not_lt.mpr hle
        simp [this]
  refine ⟨?_, ?_, ?_⟩
  · intro c hc hge
    rw [hgate]
    unfold canRunDaily
    simp [hc, hge]
  · intro c hc hlt
    rw [hgate]
    unfold canRunDaily
    simp [hc, Nat.not_le.mpr hlt]
  · intro hc
    rw [hgate]
    unfold canRunDaily
    simp [hc]

/-- Witness for C6: limit 4, counter at 4, no suspension, clock at day
20000 — the pre-check denies with midnight of day 20001. -/
theorem daily_cap_denies_until_midnight_witness :
    (∀ expiry, (⟨none, some 4, none⟩ : RateEnv).rateLimitExpiry =
        some expiry → expiry ≤ (⟨20000, 3600000⟩ : Clock).ms) ∧
    canRunTask 4 100 ⟨20000, 3600000⟩ ⟨none, some 4, none⟩ =
      ⟨false, some (⟨20000, 3600000⟩ : Clock).nextMidnightMs,
        some ("Daily limit (" ++ toString 4 ++ ") reached for account")⟩ :=
  ⟨(fun _ h => nomatch h),
    (daily_cap_denies_until_midnight 4 100 ⟨20000, 3600000⟩
        ⟨none, some 4, none⟩ (fun _ h => nomatch h)).1
      4 rfl (by decide)⟩

/-- C7 — task failure handling in `processTasks`: a provider HTTP 429
reschedules the task to `now + retryAfter * 1000` (with the header fallback
3600 s) keeping `retryCount` unchanged; any other failure increments
`retryCount` and, while the incremented count is below the ceiling 3,
reschedules with backoff `2^retryCount` minutes; once the incremented count
reaches 3 the task is removed from the queue and the terminal `taskFailed`
event is emitted. -/
theorem task_failure_handling
    (nowMs : Nat) (task : ScheduledTask) (e : HttpFailure) :
    (e.status = some 429 →
      handleTaskFailure nowMs task e =
        ⟨some { task with
            nextRunTimeMs := nowMs + failureRetryAfterSec e * 1000,
            lastError := some (jsOr (optStr e.detail) "Rate limit exceeded") },
          ["rateLimitHit"],
          some (nowMs + failureRetryAfterSec e * 1000)⟩ ∧
      ∀ t, (handleTaskFailure nowMs task e).task = some t →
        t.retryCount = task.retryCount) ∧
    (e.status ≠ some 429 → task.retryCount + 1 < 3 →
      handleTaskFailure nowMs task e =
        ⟨some { task with
            retryCount := task.retryCount + 1,
            nextRunTimeMs := nowMs + 2 ^ (task.retryCount + 1) * 60000,
            lastError := some e.message },
          [], none⟩) ∧
    (e.status ≠ some 429 → 3 ≤ task.retryCount + 1 →
      (handleTaskFailure nowMs task e).task = none ∧
      (handleTaskFailure nowMs task e).emitted = ["taskFailed"]) ∧
    (e.retryAfterHeaderSec = none → e.rlResetHeaderSec = none →
      failureRetryAfterSec e = 3600) := by
  refine ⟨?_, ?_, ?_, ?_⟩
  · intro h429
    have heq : handleTaskFailure nowMs task e =
        ⟨some { task with
            nextRunTimeMs := nowMs + failureRetryAfterSec e * 1000,
            lastError := some (jsOr (optStr e.detail) "Rate limit exceeded") },
          ["rateLimitHit"],
          some (nowMs + failureRetryAfterSec e * 1000)⟩ := by
      simp [handleTaskFailure, h429]
    refine ⟨heq, ?_⟩
    intro t ht
    rw [heq] at ht
    simp only [Option.some.injEq] at ht
    rw [← ht]
  · intro h429 hlt
    simp [handleTaskFailure, h429, hlt]
  · intro h429 hge
    have hnlt : ¬ task.retryCount + 1 < 3 := Nat.not_lt.mpr hge
    constructor <;> simp [handleTaskFailure, h429, hnlt]
  · intro h1 h2
    simp [failureRetryAfterSec, h1, h2]

/-- Witness for C7 at concrete inputs: a 429 with retry-after 60 keeps the
retry count of a fresh balance task at 0 and reschedules to `now + 60000` ms;
a non-429 failure of a task already at retry count 2 removes it and emits
`taskFailed`. -/
theorem task_failure_handling_witness :
    ((⟨some 429, some 60, none, none, "Request failed"⟩ : HttpFailure).status =
        some 429 ∧
      handleTaskFailure 1000
          ⟨"balance:acc-1:1", "balance", "acc-1", 5, 0, 0, none⟩
          ⟨some 429, some 60, none, none, "Request failed"⟩ =
        ⟨some ⟨"balance:acc-1:1", "balance", "acc-1", 5, 0, 1000 + 60 * 1000,
            some "Rate limit exceeded"⟩,
          ["rateLimitHit"], some (1000 + 60 * 1000)⟩) ∧
    ((⟨some 500, none, none, none, "boom"⟩ : HttpFailure).status ≠ some 429 ∧
      (handleTaskFailure 1000
          ⟨"balance:acc-1:1", "balance", "acc-1", 5, 2, 0, none⟩
          ⟨some 500, none, none, none, "boom"⟩).task = none ∧
      (handleTaskFailure 1000
          ⟨"balance:acc-1:1", "balance", "acc-1", 5, 2, 0, none⟩
          ⟨some 500, none, none, none, "boom"⟩).emitted = ["taskFailed"]) :=
  ⟨⟨rfl,
      ((task_failure_handling 1000
          ⟨"balance:acc-1:1", "balance", "acc-1", 5, 0, 0, none⟩
          ⟨some 429, some 60, none, none, "Request failed"⟩).1 rfl).1⟩,
    ⟨by decide,
      (task_failure_handling 1000
          ⟨"balance:acc-1:1", "balance", "acc-1", 5, 2, 0, none⟩
          ⟨some 500, none, none, none, "boom"⟩).2.2.1
        (by decide) (by decide)⟩⟩

/-- C8 — webhook anti-replay: delivering the same event id twice within the
replay window (no key expiry in between) runs the internal handler exactly
once — the first delivery wins the set-if-absent on the replay key and is
dispatched, the second finds the key present, changes nothing, and still
yields the success response. -/
theorem webhook_replay_exactly_once
    (st0 : WebhookState) (e : WebhookEventGC)
    (hkey : st0.replay (replayKey e.id) = none)
    (hcnt : st0.handled.count e.id = 0) :
    ((webhookDeliver st0 [e]).1.handled.count e.id = 1) ∧
    ((webhookDeliver (webhookDeliver st0 [e]).1 [e]).1.handled.count e.id = 1) ∧
    ((webhookDeliver (webhookDeliver st0 [e]).1 [e]).1 =
      (webhookDeliver st0 [e]).1) ∧
    ((webhookDeliver (webhookDeliver st0 [e]).1 [e]).2 = true) := by
  have h1 : (webhookDeliver st0 [e]).1 =
      ⟨storeSet st0.replay (replayKey e.id) "1", st0.handled ++ [e.id]⟩ := by
    simp [webhookDeliver, handleWebhookDelivery, hkey]
  have hc1 : (webhookDeliver st0 [e]).1.handled.count e.id = 1 := by
    rw [h1]
    simp [List.count_append, hcnt]
  have h2 : (webhookDeliver (webhookDeliver st0 [e]).1 [e]).1 =
      (webhookDeliver st0 [e]).1 := by
    rw [h1]
    simp [webhookDeliver, handleWebhookDelivery]
  refine ⟨hc1, ?_, h2, rfl⟩
  rw [h2]
  exact hc1

/-- Witness for C8: event id `"evt-1"` delivered twice into a fresh state. -/
theorem webhook_replay_exactly_once_witness :
    ((⟨emptyStore, []⟩ : WebhookState).replay (replayKey "evt-1") = none ∧
      (⟨emptyStore, []⟩ : WebhookState).handled.count "evt-1" = 0) ∧
    ((webhookDeliver ⟨emptyStore, []⟩
        [⟨"evt-1", "account", "updated", "2024-01-01"⟩]).1.handled.count
        "evt-1" = 1 ∧
      (webhookDeliver
        (webhookDeliver ⟨emptyStore, []⟩
          [⟨"evt-1", "account", "updated", "2024-01-01"⟩]).1
        [⟨"evt-1", "account", "updated", "2024-01-01"⟩]).1.handled.count
        "evt-1" = 1) :=
  ⟨⟨rfl, rfl⟩,
    ⟨(webhook_replay_exactly_once ⟨emptyStore, []⟩
        ⟨"evt-1", "account", "updated", "2024-01-01"⟩ rfl rfl).1,
      (webhook_replay_exactly_once ⟨emptyStore, []⟩
        ⟨"evt-1", "account", "updated", "2024-01-01"⟩ rfl rfl).2.1⟩⟩

/-- C10 — `updateOperation` is a no-op for an operation id with no stored
record (nothing is created, the store is untouched); it never creates or
removes a record for any key (so records originate only from the sync
route's explicit create); and a throwing store leaves the store unchanged
with the error swallowed — the function is total, never aborting the
pipeline. -/
theorem updateOperation_missing_noop
    (storeFails : Bool) (ops : OpStore) (operationId : String)
    (u : OperationUpdate) :
    (ops (operationKey operationId) = none →
      updateOperation storeFails ops operationId u = ops) ∧
    (∀ k, ((updateOperation storeFails ops operationId u) k).isSome =
      (ops k).isSome) ∧
    (storeFails = true →
      updateOperation storeFails ops operationId u = ops) := by
  refine ⟨?_, ?_, ?_⟩
  · intro hnone
    cases storeFails with
    | true => rfl
    | false => simp [updateOperation, hnone]
  · intro k
    cases storeFails with
    | true => rfl
    | false =>
        cases hv : ops (operationKey operationId) with
        | none => simp [updateOperation, hv]
        | some op =>
            by_cases hk : k = operationKey operationId
            · subst hk
              simp [updateOperation, hv, opStoreSet]
            · simp [updateOperation, hv, opStoreSet, hk]
  · intro h
    subst h
    rfl

/-- Witness for C10: an empty operation store and a status update for an
unknown operation id; the update leaves the store unchanged. -/
theorem updateOperation_missing_noop_witness :
    ((fun _ => none : OpStore) (operationKey "op-404") = none) ∧
    (updateOperation false (fun _ => none) "op-404"
      ⟨some "completed", none, none, none, none, none⟩ = (fun _ => none)) :=
  ⟨rfl,
    (updateOperation_missing_noop false (fun _ => none) "op-404"
      ⟨some "completed", none, none, none, none, none⟩).1 rfl⟩

end BankSync
